import Mathlib

set_option maxRecDepth 4000
set_option maxHeartbeats 1000000

/-!
Verification development for the DebridTraktSync title-resolution core
(`trakt_import_generator.py`).  The Python source is embedded shallowly:

* `TitleParser.clean_filename` / `TitleParser.extract_title_and_year`
  become pure functions over `List Char`; every `re.sub` pass of the
  Python code is one scanner pass here, faithful to the regex semantics
  (leftmost match, alternation order, word boundaries, greedy repetition
  with backtracking, case-insensitive flags).
* The TMDB client (`TMDBLookup`) is embedded against an abstract
  `TMDBApi` record whose `Except Unit` results model HTTP/parse
  exceptions raised by `raise_for_status` / `.json()`.
* `TraktImportGenerator.lookup_title` / `process_downloads` become
  explicit-state functions threading the per-run cache and recording the
  catalog search queries they issue.

Python truthiness (`if imdb_id:`, `if year:`, `if generated:`,
`if tmdb_id:`) is modelled explicitly where it occurs.
-/

/-! ## Character classes -/

/-- Separator class of the Python pattern `[._-]+` (step 1 of
`clean_filename`). -/
def isSep (c : Char) : Bool := c == '.' || c == '_' || c == '-'

/-- Whitespace as matched by the regex class `\s` and by Python's
`str.split` / `str.strip`. -/
def isSpace (c : Char) : Bool :=
  c == ' ' || c == '\t' || c == '\n' || c == '\r' || c == '\x0b' || c == '\x0c'

/-- Word characters of the regex metacharacter `\w`, which the word
boundary `\b` tests. -/
def wordChar (c : Char) : Bool := c.isAlpha || c.isDigit || c == '_'

/-! ## Generic substitution scanner

Python's `re.sub` scans the subject left to right; at each position it
tries the pattern (word boundaries look at the original text), replaces a
match by the replacement and resumes after the match.  `scanSub`
implements this: `tryM prevW l` attempts a match at the head of `l`
knowing whether the previous original character was a word character, and
returns the last consumed character (so boundary tracking can resume)
plus the unconsumed remainder.  Every matcher below consumes at least one
character, so fuel `l.length` is never exhausted. -/

def scanSub (tryM : Bool → List Char → Option (Char × List Char)) :
    Nat → Bool → List Char → List Char
  | 0, _, l => l
  | _ + 1, _, [] => []
  | fuel + 1, prevW, c :: rest =>
    match tryM prevW (c :: rest) with
    | some (lastc, r) => ' ' :: scanSub tryM fuel (wordChar lastc) r
    | none => c :: scanSub tryM fuel (wordChar c) rest

def runSub (tryM : Bool → List Char → Option (Char × List Char))
    (l : List Char) : List Char :=
  scanSub tryM l.length false l

/-! ## The individual `re.sub` passes of `clean_filename` -/

/-- Step 1: `re.sub(r'[._-]+', ' ', filename)` — a maximal run of
separators becomes a single space. -/
def sepMatch (_ : Bool) (l : List Char) : Option (Char × List Char) :=
  match l with
  | c :: rest => if isSep c then some (c, rest.dropWhile isSep) else none
  | [] => none

/-- Step 9 (second half): `re.sub(r'\s+', ' ', cleaned)`. -/
def spaceMatch (_ : Bool) (l : List Char) : Option (Char × List Char) :=
  match l with
  | c :: rest => if isSpace c then some (c, rest.dropWhile isSpace) else none
  | [] => none

/-- Step 3: `\[[^\]]*\]` and `\([^)]*\)` — a bracketed span (whose body
contains no closing bracket) is replaced by a space; an unclosed opening
bracket never matches. -/
def bracketMatch (op cl : Char) (_ : Bool) (l : List Char) :
    Option (Char × List Char) :=
  match l with
  | c :: rest =>
    if c == op && rest.elem cl then
      some (cl, (rest.dropWhile (fun x => !(x == cl))).tail)
    else none
  | [] => none

/-- Trailing part of `S\d{1,2}E\d{1,2}`: an `e`/`E` followed by one or
two digits, greedy. -/
def seTail : List Char → Option (Char × List Char)
  | e :: d1 :: rest =>
    if e.toLower == 'e' && d1.isDigit then
      match rest with
      | d2 :: rest2 =>
        if d2.isDigit then some (d2, rest2) else some (d1, d2 :: rest2)
      | [] => some (d1, [])
    else none
  | _ => none

/-- After the leading `s`/`S`: one or two digits (greedy, with
backtracking into the `E` part) then `seTail`. -/
def seAfterS : List Char → Option (Char × List Char)
  | d1 :: rest =>
    if d1.isDigit then
      match rest with
      | d2 :: rest2 =>
        if d2.isDigit then
          match seTail rest2 with
          | some r => some r
          | none => seTail rest
        else seTail rest
      | [] => none
    else none
  | [] => none

/-- Step 4a: `re.sub(r'S\d{1,2}E\d{1,2}', ' ', cleaned, re.IGNORECASE)`
(no word boundaries in this pattern). -/
def seMatch (_ : Bool) (l : List Char) : Option (Char × List Char) :=
  match l with
  | c :: rest => if c.toLower == 's' then seAfterS rest else none
  | [] => none

/-- Trailing `\d{1,2}\b` of the `NxM` pattern: one or two digits, greedy,
then a word boundary checked by peeking (the boundary consumes
nothing). -/
def xDigitsTail : List Char → Option (Char × List Char)
  | [] => none
  | d1 :: rest =>
    if d1.isDigit then
      match rest with
      | [] => some (d1, [])
      | d2 :: rest2 =>
        if d2.isDigit then
          match rest2 with
          | [] => some (d2, [])
          | c3 :: _ => if wordChar c3 then none else some (d2, rest2)
        else if wordChar d2 then none
        else some (d1, rest)
    else none

/-- After one leading digit of `\b\d{1,2}x\d{1,2}\b`: either a second
digit then `x`, or `x` directly, then `xDigitsTail`. -/
def xAfterFirstDigit : List Char → Option (Char × List Char)
  | c :: rest =>
    if c.isDigit then
      match rest with
      | x :: rest2 => if x.toLower == 'x' then xDigitsTail rest2 else none
      | [] => none
    else if c.toLower == 'x' then xDigitsTail rest
    else none
  | [] => none

/-- Step 4b: `re.sub(r'\b\d{1,2}x\d{1,2}\b', ' ', cleaned, re.IGNORECASE)`.
The leading `\b` holds exactly when the previous character is not a word
character (the first pattern character is a digit). -/
def xMatch (prevW : Bool) (l : List Char) : Option (Char × List Char) :=
  if prevW then none
  else
    match l with
    | c :: rest => if c.isDigit then xAfterFirstDigit rest else none
    | [] => none

/-- Case-insensitive literal prefix strip: `alt` is given in lowercase and
is compared against the lowercased subject. -/
def stripCI : List Char → List Char → Option (List Char)
  | [], l => some l
  | _ :: _, [] => none
  | p :: ps, c :: cs => if c.toLower == p then stripCI ps cs else none

/-- Try a single alternative of an alternation `\b(a1|a2|...)\b`: strip it
case-insensitively and check the trailing word boundary (exactly one of
the last matched character / the next character is a word character; end
of string counts as non-word). -/
def altTryOne (alt : List Char) (l : List Char) : Option (Char × List Char) :=
  match stripCI alt l with
  | some rest =>
    match alt.getLast? with
    | some lastc =>
      let nextW : Bool := match rest with | [] => false | c :: _ => wordChar c
      if wordChar lastc != nextW then some (lastc, rest) else none
    | none => none
  | none => none

/-- Steps 6 and 7: one alternation pattern `\b(a1|a2|...)\b` with the
IGNORECASE flag.  Every alternative starts with a word character, so the
leading `\b` holds exactly when the previous character is not a word
character; the alternatives are tried in the listed order, as the regex
engine does. -/
def altsMatch (alts : List (List Char)) (prevW : Bool) (l : List Char) :
    Option (Char × List Char) :=
  if prevW then none
  else alts.findSome? (fun alt => altTryOne alt l)

/-- Step 2: `re.sub(r'\.(mkv|mp4|avi|mov|wmv|flv|webm|m4v)$', '', ...,
re.IGNORECASE)` — the extension list of the source, in alternation
order. -/
def extsList : List (List Char) :=
  ["mkv", "mp4", "avi", "mov", "wmv", "flv", "webm", "m4v"].map String.data

/-- Case-insensitive check that `l` ends with `suf` (given lowercase). -/
def endsWithCI (suf l : List Char) : Bool :=
  List.isSuffixOf suf (l.map Char.toLower)

/-- Step 2 applied: the dotted extension anchored at the end is removed if
present (note that after step 1 no dot remains, so in the pipeline this
pass never fires). -/
def stripExt (l : List Char) : List Char :=
  match extsList.findSome?
      (fun e => if endsWithCI ('.' :: e) l then some e.length else none) with
  | some k => l.take (l.length - (k + 1))
  | none => l

/-- Tail of the site-prefix pattern after a chunk character:
`\s*-\s*` — greedy `\s*` with backtracking succeeds exactly when the
first non-space character is `-`; the trailing `\s*` then takes all
following spaces. -/
def dashTail (l : List Char) : Option (List Char) :=
  match l.dropWhile isSpace with
  | '-' :: rest => some (rest.dropWhile isSpace)
  | _ => none

/-- The `[^\s]+\s*-\s*` part of the site-prefix pattern with greedy
backtracking: longer chunks are tried before shorter ones. -/
def chunkTail : List Char → Option (List Char)
  | [] => none
  | c :: rest =>
    if isSpace c then none
    else
      match chunkTail rest with
      | some r => some r
      | none => dashTail rest

/-- Step 5: `re.sub(r'^www\.[^\s]+\s*-\s*', '', cleaned, re.IGNORECASE)` —
anchored at the start (in the pipeline the literal dot can no longer
occur after step 1, so this pass never fires either). -/
def stripSite (l : List Char) : List Char :=
  match stripCI ['w', 'w', 'w', '.'] l with
  | some rest =>
    match chunkTail rest with
    | some r => r
    | none => l
  | none => l

/-- Python `str.split()`: split on whitespace runs, dropping empty
pieces. -/
def splitWsAux : List Char → List Char → List (List Char)
  | [], acc => if acc.isEmpty then [] else [acc.reverse]
  | c :: rest, acc =>
    if isSpace c then
      if acc.isEmpty then splitWsAux rest []
      else acc.reverse :: splitWsAux rest []
    else splitWsAux rest (c :: acc)

/-- Python `str.strip()`. -/
def pyStripList (l : List Char) : List Char :=
  ((l.dropWhile isSpace).reverse.dropWhile isSpace).reverse

/-- The four `quality_patterns` alternations of the source, in order. -/
def qualityAlts : List (List (List Char)) :=
  [["1080p", "720p", "480p", "2160p", "4k", "hdr"].map String.data,
   ["web", "web-dl", "webrip", "bluray", "hdtv", "remux", "cam", "dvdrip",
    "hdrip", "brrip"].map String.data,
   ["x264", "x265", "h264", "h265", "hevc", "avc", "aac", "ac3", "dts",
    "flac", "vp9"].map String.data,
   ["ddp", "dd+", "dd", "10bit", "12bit"].map String.data]

/-- The two `release_groups` alternations of the source, in order. -/
def groupAlts : List (List (List Char)) :=
  [["edith", "megusta", "bearfish", "rawr", "nixon", "kitsune", "bae",
    "trollhd", "2hd", "shaanig", "tombdoc", "syncup", "hdhub4u"].map String.data,
   ["amzn", "nf", "ip", "pcok", "dsnp", "dsny"].map String.data]

/-- `TitleParser.clean_filename`, steps 1-9 in source order. -/
def clean_filename_list (l0 : List Char) : List Char :=
  let l1 := runSub sepMatch l0
  let l2 := stripExt l1
  let l3 := runSub (bracketMatch '[' ']') l2
  let l4 := runSub (bracketMatch '(' ')') l3
  let l5 := runSub seMatch l4
  let l6 := runSub xMatch l5
  let l7 := stripSite l6
  let l8 := qualityAlts.foldl (fun acc alts => runSub (altsMatch alts) acc) l7
  let l9 := groupAlts.foldl (fun acc alts => runSub (altsMatch alts) acc) l8
  let toks := (splitWsAux l9 []).filter
    (fun t => decide (1 < t.length) && !(t.all Char.isDigit))
  let l10 := List.intercalate [' '] toks
  pyStripList (runSub spaceMatch l10)

/-- `TitleParser.clean_filename` on strings. -/
def clean_filename (s : String) : String :=
  String.mk (clean_filename_list s.data)

/-! ## Year extraction (`TitleParser.extract_title_and_year`) -/

/-- Shape of the group `(19\d{2}|20\d{2})`. -/
def yearShape (ds : List Char) : Bool :=
  match ds with
  | [a, b, c, d] =>
    (((a == '1') && (b == '9')) || ((a == '2') && (b == '0')))
      && c.isDigit && d.isDigit
  | _ => false

/-- Trailing word boundary test: the next original character (if any) is
not a word character. -/
def headNonWord (l : List Char) : Bool :=
  match l with
  | [] => true
  | c :: _ => !(wordChar c)

/-- Match of `(19\d{2}|20\d{2})\b` at the head of `l`, returning the four
matched digit characters. -/
def yearAt (l : List Char) : Option (List Char) :=
  match l with
  | a :: b :: c :: d :: rest =>
    if yearShape [a, b, c, d] && headNonWord rest then some [a, b, c, d]
    else none
  | _ => none

/-- `re.search(r'\b(19\d{2}|20\d{2})\b', filename)`: leftmost match,
scanning with the word-character status of the previous character. -/
def searchYear (prevW : Bool) : List Char → Option (List Char)
  | [] => none
  | c :: rest =>
    match if prevW then none else yearAt (c :: rest) with
    | some ds => some ds
    | none => searchYear (wordChar c) rest

/-- `re.sub(year_match.group(1), ' ', filename, count=1)`: the first plain
substring occurrence of the matched digits is replaced by one space
(no word-boundary condition on the occurrence being replaced). -/
def replaceFirstOcc (pat : List Char) (r : Char) : List Char → List Char
  | [] => []
  | c :: rest =>
    if pat.isPrefixOf (c :: rest) then r :: (c :: rest).drop pat.length
    else c :: replaceFirstOcc pat r rest

/-- Numeric value of a digit string (`int(year_match.group(1))`). -/
def digitsVal (l : List Char) : Nat :=
  l.foldl (fun a c => a * 10 + (c.toNat - '0'.toNat)) 0

/-- `TitleParser.extract_title_and_year`. -/
def extract_title_and_year (filename : String) : String × Option Nat :=
  match searchYear false filename.data with
  | some ds =>
    (String.mk (clean_filename_list (replaceFirstOcc ds ' ' filename.data)),
     some (digitsVal ds))
  | none => (String.mk (clean_filename_list filename.data), none)

/-! ## TMDB client (`TMDBLookup`)

The HTTP layer is abstracted as `TMDBApi`: each endpoint either raises
(`Except.error`, covering network errors, non-2xx statuses and parse
failures) or returns the parsed payload fields the source reads.  Search
results are modelled by the one field the code uses per item — the `id`
(absent or present; `0` is Python-falsy) — plus, for the multi search,
the `media_type` tag.  Detail endpoints return the
`external_ids.imdb_id` field. -/

inductive MediaKind
  | movie
  | tv
  | person
deriving DecidableEq, Repr

structure RawItem where
  media_type : MediaKind
  id : Option Nat
deriving DecidableEq, Repr

structure TMDBApi where
  searchMovie : String → Option Nat → Except Unit (List (Option Nat))
  searchTV : String → Option Nat → Except Unit (List (Option Nat))
  searchMulti : String → Except Unit (List RawItem)
  movieDetails : Nat → Except Unit (Option String)
  tvDetails : Nat → Except Unit (Option String)

/-- Python truthiness of the optional `year` argument (`if year:`):
`None` and `0` are falsy, so the year parameter is sent only when
truthy. -/
def optNatTruthy : Option Nat → Option Nat
  | some n => if n == 0 then none else some n
  | none => none

/-- Python's `s.startswith("tt")`. -/
def ttStarts (s : String) : Bool :=
  match s.data with
  | a :: b :: _ => a == 't' && b == 't'
  | _ => false

/-- The imdb-id fixup `if imdb_id and not imdb_id.startswith("tt"):
imdb_id = f"tt{imdb_id}"` (an empty string is falsy and left alone). -/
def ttNormalize : Option String → Option String
  | none => none
  | some s =>
    if s.data.isEmpty then some s
    else if ttStarts s then some s
    else some ("tt" ++ s)

/-- Python truthiness of an optional string (`if imdb_id:`). -/
def truthyStr : Option String → Bool
  | some s => !s.data.isEmpty
  | none => false

/-- `TMDBLookup.search_movie_with_external_ids`: on any raised error the
whole call returns `None`; otherwise the first-ranked result's id is
fetched for external ids and the result dict (reduced to its `imdb_id`
field) is returned — possibly with `imdb_id = None`. -/
def search_movie_with_external_ids (api : TMDBApi) (title : String)
    (year : Option Nat) : Option (Option String) :=
  match api.searchMovie title (optNatTruthy year) with
  | Except.error _ => none
  | Except.ok results =>
    match results with
    | [] => none
    | mid :: _ =>
      match mid with
      | some tmdbId =>
        if tmdbId == 0 then none
        else
          match api.movieDetails tmdbId with
          | Except.error _ => none
          | Except.ok raw => some (ttNormalize raw)
      | none => none

/-- `TMDBLookup.search_tv_show_with_external_ids` (same shape; the year
is sent as `first_air_date_year`). -/
def search_tv_show_with_external_ids (api : TMDBApi) (title : String)
    (year : Option Nat) : Option (Option String) :=
  match api.searchTV title (optNatTruthy year) with
  | Except.error _ => none
  | Except.ok results =>
    match results with
    | [] => none
    | mid :: _ =>
      match mid with
      | some tmdbId =>
        if tmdbId == 0 then none
        else
          match api.tvDetails tmdbId with
          | Except.error _ => none
          | Except.ok raw => some (ttNormalize raw)
      | none => none

/-- Detail endpoint selected by `media_type` (`/{media_type}/{tmdb_id}`,
the same endpoints as the movie/tv detail calls).  Only `movie` and `tv`
items are ever queried by the loop below. -/
def detailsFor (api : TMDBApi) : MediaKind → Nat → Except Unit (Option String)
  | MediaKind.movie, i => api.movieDetails i
  | MediaKind.tv, i => api.tvDetails i
  | MediaKind.person, _ => Except.error ()

/-- Loop body of `search_multi_with_external_ids`: each movie/tv item
with a truthy id gets a detail call; a raised error anywhere propagates
to the enclosing `try` (discarding the partial list). -/
def processMulti (api : TMDBApi) : List RawItem → Except Unit (List (Option String))
  | [] => Except.ok []
  | item :: rest =>
    if item.media_type = MediaKind.movie ∨ item.media_type = MediaKind.tv then
      match item.id with
      | some tmdbId =>
        if tmdbId == 0 then processMulti api rest
        else
          match detailsFor api item.media_type tmdbId with
          | Except.error e => Except.error e
          | Except.ok raw =>
            match processMulti api rest with
            | Except.error e => Except.error e
            | Except.ok l => Except.ok (ttNormalize raw :: l)
      | none => processMulti api rest
    else processMulti api rest

/-- `TMDBLookup.search_multi_with_external_ids`: the ranked list of
valid (movie/tv, truthy-id) results reduced to their `imdb_id` fields;
any raised error yields `[]`. -/
def search_multi_with_external_ids (api : TMDBApi) (title : String) :
    List (Option String) :=
  match api.searchMulti title with
  | Except.error _ => []
  | Except.ok results =>
    match processMulti api results with
    | Except.error _ => []
    | Except.ok l => l

/-! ## Resolver (`TraktImportGenerator.lookup_title`) -/

/-- One catalog search query, as issued by `attempt_lookup`. -/
inductive Query
  | movie (t : String) (y : Option Nat)
  | tv (t : String) (y : Option Nat)
  | multi (t : String)
deriving DecidableEq, Repr

/-- The truthiness filter `if result and result.get("imdb_id"):` applied
to a search result (a returned dict is always non-empty, so `result`
truthiness is `isSome`). -/
def hitOf : Option (Option String) → Option String
  | some (some s) => if s.data.isEmpty then none else some s
  | _ => none

/-- The loop `for item in multi_results: if item.get("imdb_id"): return
item.get("imdb_id")`. -/
def firstTruthy : List (Option String) → Option String
  | [] => none
  | some s :: rest => if s.data.isEmpty then firstTruthy rest else some s
  | none :: rest => firstTruthy rest

/-- Inner helper `attempt_lookup` of `lookup_title`: movie search, then
TV search, then multi search; also records the queries it issued. -/
def attempt_lookup (api : TMDBApi) (t : String) (y : Option Nat) :
    Option String × List Query :=
  match hitOf (search_movie_with_external_ids api t y) with
  | some s => (some s, [Query.movie t y])
  | none =>
    match hitOf (search_tv_show_with_external_ids api t y) with
    | some s => (some s, [Query.movie t y, Query.tv t y])
    | none =>
      (firstTruthy (search_multi_with_external_ids api t),
       [Query.movie t y, Query.tv t y, Query.multi t])

/-- Python's `f"{title}_{year}"` cache key (`str(None) = "None"`). -/
def pyOptRepr : Option Nat → String
  | none => "None"
  | some n => toString n

def cacheKey (t : String) (y : Option Nat) : String := t ++ "_" ++ pyOptRepr y

/-- The per-run `title_cache` dict (`Dict[str, Optional[str]]`),
as an association list with newest binding first. -/
abbrev Cache := List (String × Option String)

/-- Python `str.endswith` / `str.startswith` / slicing / `lower` /
`strip` / `split` / `join`, character-based as in Python. -/
def pyEndsWith (s t : String) : Bool := List.isSuffixOf t.data s.data

def pyStartsWithStr (s t : String) : Bool := List.isPrefixOf t.data s.data

def pyDropStr (s : String) (n : Nat) : String := String.mk (s.data.drop n)

def pyDropRightStr (s : String) (n : Nat) : String :=
  String.mk (s.data.take (s.data.length - n))

def pyLowerStr (s : String) : String := String.mk (s.data.map Char.toLower)

def pyStripStr (s : String) : String := String.mk (pyStripList s.data)

def pySplitStr (s : String) : List String := (splitWsAux s.data []).map String.mk

def pyJoin (sep : String) (xs : List String) : String :=
  String.mk (List.intercalate sep.data (xs.map String.data))

/-- Strategy 3 suffix list of the source. -/
def regionSuffixes : List String := [" US", " UK", " AU", " CA", " NZ"]

/-- Strategy 5 word list of the source. -/
def commonWords : List String := ["the", "a", "an"]

/-- Strategy 3 loop: for each region suffix the title ends with, attempt
with the year and then without; `if imdb: break`.  `imdb0` is the current
value of the `imdb` variable entering the iteration. -/
def regionLoop (api : TMDBApi) (title : String) (year : Option Nat) :
    Option String → List String → Option String × List Query
  | imdb0, [] => (imdb0, [])
  | imdb0, sfx :: rest =>
    if pyEndsWith title sfx then
      let trimmed := pyStripStr (pyDropRightStr title sfx.length)
      let p1 := attempt_lookup api trimmed year
      if truthyStr p1.1 then (p1.1, p1.2)
      else
        let p2 := attempt_lookup api trimmed none
        if truthyStr p2.1 then (p2.1, p1.2 ++ p2.2)
        else
          let p3 := regionLoop api title year p2.1 rest
          (p3.1, p1.2 ++ p2.2 ++ p3.2)
    else regionLoop api title year imdb0 rest

/-- Strategy 4 loop over `word_count in [3, 2]`. -/
def wordLoop (api : TMDBApi) (title : String) (year : Option Nat) :
    Option String → List Nat → Option String × List Query
  | imdb0, [] => (imdb0, [])
  | imdb0, wc :: rest =>
    let words := pySplitStr title
    if wc ≤ words.length then
      let short := pyJoin " " (words.take wc)
      let p1 := attempt_lookup api short year
      if truthyStr p1.1 then (p1.1, p1.2)
      else
        let p2 := attempt_lookup api short none
        if truthyStr p2.1 then (p2.1, p1.2 ++ p2.2)
        else
          let p3 := wordLoop api title year p2.1 rest
          (p3.1, p1.2 ++ p2.2 ++ p3.2)
    else wordLoop api title year imdb0 rest

/-- Strategy 5 loop over the leading articles. -/
def articleLoop (api : TMDBApi) (title : String) (year : Option Nat) :
    Option String → List String → Option String × List Query
  | imdb0, [] => (imdb0, [])
  | imdb0, w :: rest =>
    if pyStartsWithStr (pyLowerStr title) (w ++ " ") then
      let trimmed := pyStripStr (pyDropStr title w.length)
      let p1 := attempt_lookup api trimmed year
      if truthyStr p1.1 then (p1.1, p1.2)
      else
        let p2 := attempt_lookup api trimmed none
        if truthyStr p2.1 then (p2.1, p1.2 ++ p2.2)
        else
          let p3 := articleLoop api title year p2.1 rest
          (p3.1, p1.2 ++ p2.2 ++ p3.2)
    else articleLoop api title year imdb0 rest

/-- Strategy 1: `imdb = attempt_lookup(title, year)`. -/
def strategy1 (api : TMDBApi) (title : String) (year : Option Nat) :
    Option String × List Query :=
  attempt_lookup api title year

/-- Strategy 2: `if not imdb and year is not None: imdb =
attempt_lookup(title, None)`.  The pair threads the current `imdb` value
and the accumulated query log. -/
def strategy2 (api : TMDBApi) (title : String) (year : Option Nat)
    (r : Option String × List Query) : Option String × List Query :=
  if truthyStr r.1 = false ∧ year ≠ none then
    let p := attempt_lookup api title none
    (p.1, r.2 ++ p.2)
  else r

/-- Strategy 3: `if not imdb:` region-suffix loop. -/
def strategy3 (api : TMDBApi) (title : String) (year : Option Nat)
    (r : Option String × List Query) : Option String × List Query :=
  if truthyStr r.1 = false then
    let p := regionLoop api title year r.1 regionSuffixes
    (p.1, r.2 ++ p.2)
  else r

/-- Strategy 4: `if not imdb and len(title.split()) > 3:` truncation
loop over `[3, 2]` words. -/
def strategy4 (api : TMDBApi) (title : String) (year : Option Nat)
    (r : Option String × List Query) : Option String × List Query :=
  if truthyStr r.1 = false ∧ 3 < (pySplitStr title).length then
    let p := wordLoop api title year r.1 [3, 2]
    (p.1, r.2 ++ p.2)
  else r

/-- Strategy 5: `if not imdb:` leading-article loop. -/
def strategy5 (api : TMDBApi) (title : String) (year : Option Nat)
    (r : Option String × List Query) : Option String × List Query :=
  if truthyStr r.1 = false then
    let p := articleLoop api title year r.1 commonWords
    (p.1, r.2 ++ p.2)
  else r

/-- The five-strategy cascade of `lookup_title` (its body between the
cache check and the cache write). -/
def cascade (api : TMDBApi) (title : String) (year : Option Nat) :
    Option String × List Query :=
  strategy5 api title year
    (strategy4 api title year
      (strategy3 api title year
        (strategy2 api title year (strategy1 api title year))))

/-- `TraktImportGenerator.lookup_title`: cache check first, then the
five-strategy cascade, then the unconditional cache write under the
original `(title, year)` key.  Returns the result, the updated cache and
the catalog queries issued by this call. -/
def lookup_title (api : TMDBApi) (cache : Cache) (title : String)
    (year : Option Nat) : Option String × Cache × List Query :=
  let key := cacheKey title year
  match cache.lookup key with
  | some v => (v, cache, [])
  | none =>
    let r := cascade api title year
    (r.1, (key, r.1) :: cache, r.2)

/-! ## Batch processing (`TraktImportGenerator.process_downloads`) -/

/-- One Real-Debrid download record, reduced to the fields the loop
reads (`download.get('filename', '')` and `download.get('generated')`). -/
structure Download where
  filename : String
  generated : Option Int
deriving DecidableEq, Repr

/-- One Trakt import entry. -/
structure TraktEntry where
  imdb_id : String
  watched_at : Option String
deriving DecidableEq, Repr

/-- Derivation of `watched_at`: `if generated:` (0 is falsy), then
`datetime.fromtimestamp(generated).isoformat() + "Z"` inside a
`try/except` — the conversion `isoOf` returns `none` when it raises. -/
def watchedAtOf (isoOf : Int → Option String) : Option Int → Option String
  | some g =>
    if g = 0 then none
    else
      match isoOf g with
      | some s => some (s ++ "Z")
      | none => none
  | none => none

/-- Body of the `for download in downloads:` loop for a single record:
skip on empty filename, skip on unusable title, look up, and append an
entry only when the lookup result is truthy. -/
def processStep (api : TMDBApi) (isoOf : Int → Option String) (cache : Cache)
    (d : Download) : Option TraktEntry × Cache :=
  if d.filename = "" then (none, cache)
  else
    let te := extract_title_and_year d.filename
    if te.1 = "" ∨ te.1.length < 3 then (none, cache)
    else
      let w := watchedAtOf isoOf d.generated
      let r := lookup_title api cache te.1 te.2
      match r.1 with
      | some s => if s.data.isEmpty then (none, r.2.1) else (some ⟨s, w⟩, r.2.1)
      | none => (none, r.2.1)

/-- The `for download in downloads:` loop, threading the cache through
the successive records and collecting the emitted entries in order. -/
def process_downloads_go (api : TMDBApi) (isoOf : Int → Option String) :
    Cache → List Download → List TraktEntry × Cache
  | cache, [] => ([], cache)
  | cache, d :: rest =>
    let sr := processStep api isoOf cache d
    let r := process_downloads_go api isoOf sr.2 rest
    ((match sr.1 with | some e => [e] | none => []) ++ r.1, r.2)

/-- `TraktImportGenerator.process_downloads` over an already-fetched
download list, starting from the empty per-run cache. -/
def process_downloads (api : TMDBApi) (isoOf : Int → Option String)
    (downloads : List Download) : List TraktEntry × Cache :=
  process_downloads_go api isoOf [] downloads

/-! ## Declarative companions used by the theorems -/

/-- Leading word-boundary test for a match placed after prefix `pre`:
the character before the match (the last of `pre`, or the scanner state
`prevW` when `pre` is empty) is not a word character. -/
def lastNonWord (prevW : Bool) (pre : List Char) : Bool :=
  match pre.getLast? with
  | none => !prevW
  | some c => !(wordChar c)

/-- Declarative reading of "a word-boundary-delimited occurrence of
`(19\d{2}|20\d{2})` splitting `l` as `pre ++ ds ++ post`". -/
def yearSplit (prevW : Bool) (l pre ds post : List Char) : Prop :=
  l = pre ++ ds ++ post ∧ yearShape ds = true ∧
    lastNonWord prevW pre = true ∧ headNonWord post = true

/-- Spec reading of the year-removal step ("remove the *first* such
occurrence", i.e. the first word-boundary-delimited year match), written
for comparison with the source's `replaceFirstOcc` behaviour. -/
def specYearRemoval (prevW : Bool) : List Char → List Char
  | [] => []
  | c :: rest =>
    match if prevW then none else yearAt (c :: rest) with
    | some ds => ' ' :: (c :: rest).drop ds.length
    | none => c :: specYearRemoval (wordChar c) rest

/-- The spec invariant pattern `tt[0-9]+`. -/
def isTTid (s : String) : Bool :=
  match s.data with
  | a :: b :: rest => a == 't' && b == 't' && !rest.isEmpty && rest.all Char.isDigit
  | _ => false

/-- A raw `external_ids.imdb_id` value of a well-behaved catalog: absent,
empty, all digits, or already of the `tt[0-9]+` form. -/
def goodRaw (r : Option String) : Prop :=
  ∀ s, r = some s →
    s.data = [] ∨ (s.data ≠ [] ∧ s.data.all Char.isDigit = true) ∨ isTTid s = true

/-- A catalog whose cross-reference endpoints only return well-behaved
imdb ids. -/
def goodDetails (api : TMDBApi) : Prop :=
  (∀ i r, api.movieDetails i = Except.ok r → goodRaw r) ∧
  (∀ i r, api.tvDetails i = Except.ok r → goodRaw r)

/-- Every present value of the cache matches `tt[0-9]+`. -/
def goodCache (c : Cache) : Prop :=
  ∀ k v, (k, v) ∈ c → ∀ s, v = some s → isTTid s = true

/-! ## Concrete catalog stubs used by witnesses and counterexamples -/

/-- Catalog stub of the spec's Matrix scenario: the movie search returns
one match with internal id 603 whose cross-reference is `tt0133093`. -/
def matrixApi : TMDBApi :=
  ⟨fun _ _ => Except.ok [some 603], fun _ _ => Except.ok [],
   fun _ => Except.ok [],
   fun i => if i = 603 then Except.ok (some "tt0133093") else Except.ok none,
   fun _ => Except.ok none⟩

/-- Catalog stub resolving only the query `"Aaa Bbb"` (the first two
words of the four-word test title), with cross-reference `tt7`. -/
def truncApi : TMDBApi :=
  ⟨fun q _ => if q = "Aaa Bbb" then Except.ok [some 7] else Except.ok [],
   fun _ _ => Except.ok [], fun _ => Except.ok [],
   fun _ => Except.ok (some "tt7"), fun _ => Except.ok none⟩

/-- Catalog stub whose multi search ranks first a candidate with no
imdb cross-reference and second a candidate with `tt123`. -/
def multiRankApi : TMDBApi :=
  ⟨fun _ _ => Except.ok [], fun _ _ => Except.ok [],
   fun _ => Except.ok [⟨MediaKind.movie, some 1⟩, ⟨MediaKind.movie, some 2⟩],
   fun i => if i = 1 then Except.ok none else Except.ok (some "tt123"),
   fun _ => Except.ok none⟩

/-- Catalog stub whose movie search yields two ranked candidates, the
first of which has an absent imdb cross-reference. -/
def missTopApi : TMDBApi :=
  ⟨fun _ _ => Except.ok [some 5, some 9], fun _ _ => Except.ok [],
   fun _ => Except.ok [], fun _ => Except.ok none, fun _ => Except.ok none⟩

/-- Catalog stub whose TV search yields two ranked candidates, the
first of which has an absent imdb cross-reference. -/
def missTopTvApi : TMDBApi :=
  ⟨fun _ _ => Except.ok [], fun _ _ => Except.ok [some 6, some 9],
   fun _ => Except.ok [], fun _ => Except.ok none, fun _ => Except.ok none⟩

/-- Catalog stub whose cross-reference endpoint returns the non-numeric
string `"abc"`. -/
def oddIdApi : TMDBApi :=
  ⟨fun _ _ => Except.ok [some 1], fun _ _ => Except.ok [],
   fun _ => Except.ok [], fun _ => Except.ok (some "abc"),
   fun _ => Except.ok none⟩

/-- Well-behaved catalog stub: movie cross-references are bare digits,
tv cross-references already carry the `tt` prefix. -/
def digitsApi : TMDBApi :=
  ⟨fun _ _ => Except.ok [some 1], fun _ _ => Except.ok [],
   fun _ => Except.ok [], fun _ => Except.ok (some "0133093"),
   fun _ => Except.ok (some "tt123")⟩

/-- Catalog stub on which every search endpoint raises. -/
def failApi : TMDBApi :=
  ⟨fun _ _ => Except.error (), fun _ _ => Except.error (),
   fun _ => Except.error (), fun _ => Except.error (),
   fun _ => Except.error ()⟩

/-- Catalog stub whose movie search succeeds but whose movie detail
(cross-reference) call raises. -/
def detailFailApi : TMDBApi :=
  ⟨fun _ _ => Except.ok [some 5], fun _ _ => Except.ok [],
   fun _ => Except.ok [], fun _ => Except.error (),
   fun _ => Except.ok none⟩

/-- Catalog stub resolving every movie query to `tt42`. -/
def tt42Api : TMDBApi :=
  ⟨fun _ _ => Except.ok [some 3], fun _ _ => Except.ok [],
   fun _ => Except.ok [], fun _ => Except.ok (some "tt42"),
   fun _ => Except.ok none⟩

/-! ## Helper lemmas: cache behaviour of `lookup_title` -/

theorem lookup_title_hit (api : TMDBApi) (c : Cache) (t : String)
    (y : Option Nat) (v : Option String) (h : c.lookup (cacheKey t y) = some v) :
    lookup_title api c t y = (v, c, []) := by
  simp only [lookup_title, h]

theorem lookup_title_miss (api : TMDBApi) (c : Cache) (t : String)
    (y : Option Nat) (h : c.lookup (cacheKey t y) = none) :
    lookup_title api c t y
      = ((cascade api t y).1,
         (cacheKey t y, (cascade api t y).1) :: c, (cascade api t y).2) := by
  simp only [lookup_title, h]

theorem lookup_cons_self (k : String) (v : Option String) (c : Cache) :
    List.lookup k ((k, v) :: c) = some v := by
  simp [List.lookup]

theorem lookup_cons_ne (k k' : String) (v : Option String) (c : Cache)
    (h : k' ≠ k) : List.lookup k' ((k, v) :: c) = List.lookup k' c := by
  have hb : (k' == k) = false := by
    simp [h]
  simp [List.lookup, hb]

theorem mem_of_lookup_eq_some {k : String} {v : Option String} :
    ∀ c : Cache, c.lookup k = some v → (k, v) ∈ c := by
  intro c
  induction c with
  | nil => intro h; simp [List.lookup] at h
  | cons p rest ih =>
    intro h
    obtain ⟨k', v'⟩ := p
    simp only [List.lookup] at h
    cases hb : (k == k') with
    | true =>
      rw [hb] at h
      simp only [Option.some.injEq] at h
      subst h
      have : k = k' := eq_of_beq hb
      subst this
      exact List.mem_cons_self _ _
    | false =>
      rw [hb] at h
      exact List.mem_cons_of_mem _ (ih h)

/-- C1: a second `resolve(t, y)` within the same run returns the cached
value (a cached negative result included) and issues no catalog query —
after any call the key is cached, the immediate repeat returns the same
value with an unchanged cache and an empty query log, and any call on a
cache holding the key is a pure hit. -/
theorem claim1_cache_round_trip (api : TMDBApi) (c : Cache) (t : String)
    (y : Option Nat) :
    (lookup_title api c t y).2.1.lookup (cacheKey t y)
        = some (lookup_title api c t y).1 ∧
    lookup_title api (lookup_title api c t y).2.1 t y
        = ((lookup_title api c t y).1, (lookup_title api c t y).2.1, []) ∧
    (∀ v, c.lookup (cacheKey t y) = some v → lookup_title api c t y = (v, c, [])) := by
  have hmem : (lookup_title api c t y).2.1.lookup (cacheKey t y)
      = some (lookup_title api c t y).1 := by
    cases h : c.lookup (cacheKey t y) with
    | some v => rw [lookup_title_hit api c t y v h]; exact h
    | none =>
      rw [lookup_title_miss api c t y h]
      exact lookup_cons_self _ _ _
  exact ⟨hmem, lookup_title_hit _ _ _ _ _ hmem,
    fun v hv => lookup_title_hit _ _ _ _ _ hv⟩

/-- Witness for C1 at a concrete cache holding a negative entry. -/
theorem claim1_witness :
    List.lookup (cacheKey "t" none) [(cacheKey "t" none, (none : Option String))]
        = some none ∧
    lookup_title failApi [(cacheKey "t" none, (none : Option String))] "t" none
        = (none, [(cacheKey "t" none, none)], []) :=
  ⟨by decide,
   (claim1_cache_round_trip failApi
      [(cacheKey "t" none, (none : Option String))] "t" none).2.2 none (by decide)⟩

/-- C7: whatever strategy of the cascade succeeds, the result is stored
under the original `(title, year)` cache key — the call adds exactly the
binding for the original key and leaves every other key's entry
unchanged. -/
theorem claim7_original_key_caching (api : TMDBApi) (c : Cache) (t : String)
    (y : Option Nat) (h : c.lookup (cacheKey t y) = none) :
    (lookup_title api c t y).2.1
        = (cacheKey t y, (lookup_title api c t y).1) :: c ∧
    ∀ k, k ≠ cacheKey t y →
      ((lookup_title api c t y).2.1).lookup k = c.lookup k := by
  rw [lookup_title_miss api c t y h]
  exact ⟨rfl, fun k hk => lookup_cons_ne _ _ _ _ hk⟩

/-- Witness for C7: a four-word title failing the exact and year-relaxed
passes and resolving only at the two-word truncation; the entry lands
under the original key and the truncated variant's key stays absent. -/
theorem claim7_witness :
    List.lookup (cacheKey "Aaa Bbb Ccc Ddd" (some 2000)) ([] : Cache) = none ∧
    ((lookup_title truncApi [] "Aaa Bbb Ccc Ddd" (some 2000)).2.1
        = (cacheKey "Aaa Bbb Ccc Ddd" (some 2000),
           (lookup_title truncApi [] "Aaa Bbb Ccc Ddd" (some 2000)).1) :: [] ∧
     ∀ k, k ≠ cacheKey "Aaa Bbb Ccc Ddd" (some 2000) →
       ((lookup_title truncApi [] "Aaa Bbb Ccc Ddd" (some 2000)).2.1).lookup k
         = ([] : Cache).lookup k) ∧
    (lookup_title truncApi [] "Aaa Bbb Ccc Ddd" (some 2000)).1 = some "tt7" ∧
    ((lookup_title truncApi [] "Aaa Bbb Ccc Ddd" (some 2000)).2.1).lookup
        (cacheKey "Aaa Bbb" (some 2000)) = none :=
  ⟨rfl, claim7_original_key_caching truncApi [] "Aaa Bbb Ccc Ddd" (some 2000) rfl,
   by decide, by decide⟩

/-- C3 fails on the code: normalizing the Matrix release name keeps the
unknown release-group token and the container extension (the extension
regex requires a literal dot, which step 1 has already replaced), so the
title is not `"The Matrix"`. -/
theorem claim3_counterexample :
    extract_title_and_year "The.Matrix.1999.1080p.BluRay.x264-GROUP.mkv"
      ≠ ("The Matrix", some 1999) := by
  decide

/-- C3 amended: the input normalizes to title `"The Matrix GROUP mkv"`
with year 1999, and resolving that pair against the catalog stub
(movie match with internal id 603, cross-reference `tt0133093`)
yields `tt0133093`. -/
theorem claim3_amended :
    extract_title_and_year "The.Matrix.1999.1080p.BluRay.x264-GROUP.mkv"
      = ("The Matrix GROUP mkv", some 1999) ∧
    (lookup_title matrixApi []
      (extract_title_and_year "The.Matrix.1999.1080p.BluRay.x264-GROUP.mkv").1
      (extract_title_and_year "The.Matrix.1999.1080p.BluRay.x264-GROUP.mkv").2).1
      = some "tt0133093" := by
  constructor
  · decide
  · decide

/-- C5 fails on the code: the site-prefix regex requires the literal
`www.` with a dot, but step 1 already turned the dots into spaces, so
the prefix survives (as does the extension token). -/
theorem claim5_counterexample :
    extract_title_and_year "www.site.com - Show.Name.S02E05.WEBRip.x265.mkv"
      ≠ ("Show Name", none) := by
  decide

/-- C5 amended: the year is absent and the season/episode marker is
removed, but the site prefix and the extension token survive cleaning,
giving title `"www site com Show Name mkv"`. -/
theorem claim5_amended :
    extract_title_and_year "www.site.com - Show.Name.S02E05.WEBRip.x265.mkv"
      = ("www site com Show Name mkv", none) ∧
    ¬ "S02E05".data <:+: "www site com Show Name mkv".data := by
  constructor
  · decide
  · decide

/-- C8: a download record contributes an output entry exactly when its
filename is non-empty, its parsed title is usable (non-empty and at
least 3 characters — so a 2-character title is rejected and a
3-character one accepted by the `len(title) < 3` test), and its
resolution returns a truthy external ID; otherwise nothing (no partial
or error entry) is emitted. -/
theorem claim8_emission_iff (api : TMDBApi) (isoOf : Int → Option String)
    (c : Cache) (d : Download) :
    (processStep api isoOf c d).1 ≠ none ↔
      (d.filename ≠ "" ∧
       ¬((extract_title_and_year d.filename).1 = ""
          ∨ (extract_title_and_year d.filename).1.length < 3) ∧
       truthyStr (lookup_title api c (extract_title_and_year d.filename).1
          (extract_title_and_year d.filename).2).1 = true) := by
  by_cases h1 : d.filename = ""
  · simp [processStep, h1]
  · by_cases h2 : (extract_title_and_year d.filename).1 = ""
        ∨ (extract_title_and_year d.filename).1.length < 3
    · simp [processStep, h1, h2]
    · cases hr : (lookup_title api c (extract_title_and_year d.filename).1
          (extract_title_and_year d.filename).2).1 with
      | none => simp [processStep, h1, h2, hr, truthyStr]
      | some s =>
        by_cases h3 : s.data.isEmpty
        · simp [processStep, h1, h2, hr, truthyStr, h3]
        · simp [processStep, h1, h2, hr, truthyStr, h3]

/-- C10: a successfully resolved record is still emitted when its
watched-at timestamp cannot be derived — a missing `generated`, a falsy
`generated = 0`, or a raising timestamp conversion all produce an entry
with an absent `watched_at` instead of skipping the record. -/
theorem claim10_entry_without_timestamp (api : TMDBApi)
    (isoOf : Int → Option String) (c : Cache) (d : Download)
    (h1 : d.filename ≠ "")
    (h2 : ¬((extract_title_and_year d.filename).1 = ""
        ∨ (extract_title_and_year d.filename).1.length < 3))
    (h3 : truthyStr (lookup_title api c (extract_title_and_year d.filename).1
        (extract_title_and_year d.filename).2).1 = true)
    (h4 : d.generated = none ∨ d.generated = some 0
        ∨ ∃ g, d.generated = some g ∧ isoOf g = none) :
    ∃ s, (processStep api isoOf c d).1 = some ⟨s, none⟩ := by
  have hw : watchedAtOf isoOf d.generated = none := by
    rcases h4 with h | h | ⟨g, hg, hiso⟩
    · rw [h]; rfl
    · rw [h]; simp [watchedAtOf]
    · rw [hg]
      by_cases hg0 : g = 0
      · simp [watchedAtOf, hg0]
      · simp [watchedAtOf, hg0, hiso]
  cases hr : (lookup_title api c (extract_title_and_year d.filename).1
      (extract_title_and_year d.filename).2).1 with
  | none => rw [hr] at h3; simp [truthyStr] at h3
  | some s =>
    rw [hr] at h3
    simp only [truthyStr, Bool.not_eq_true'] at h3
    refine ⟨s, ?_⟩
    simp [processStep, h1, h2, hr, hw, h3]

/-- Witness for C10 at a record whose `generated` field is the falsy 0. -/
theorem claim10_witness :
    ((⟨"Foo Bar", some 0⟩ : Download).filename ≠ "" ∧
     ¬((extract_title_and_year (⟨"Foo Bar", some 0⟩ : Download).filename).1 = ""
        ∨ (extract_title_and_year
            (⟨"Foo Bar", some 0⟩ : Download).filename).1.length < 3) ∧
     truthyStr (lookup_title tt42Api []
        (extract_title_and_year (⟨"Foo Bar", some 0⟩ : Download).filename).1
        (extract_title_and_year
          (⟨"Foo Bar", some 0⟩ : Download).filename).2).1 = true) ∧
    ∃ s, (processStep tt42Api (fun _ => none) []
        (⟨"Foo Bar", some 0⟩ : Download)).1 = some ⟨s, none⟩ :=
  ⟨⟨by decide, by decide, by decide⟩,
   claim10_entry_without_timestamp tt42Api (fun _ => none) [] ⟨"Foo Bar", some 0⟩
     (by decide) (by decide) (by decide) (Or.inr (Or.inl rfl))⟩

/-- C6 fails on the code: within the single multi-search query of the
stub, the catalog's first-ranked candidate has no imdb cross-reference,
yet the resolver inspects the second-ranked candidate and returns its
id instead of treating the query as a miss. -/
theorem claim6_counterexample :
    search_multi_with_external_ids multiRankApi "t" = [none, some "tt123"] ∧
    (attempt_lookup multiRankApi "t" none).1 = some "tt123" := by
  constructor
  · decide
  · decide

/-- C6 amended: for the movie and the TV search queries only the
catalog's first-ranked candidate is consulted — the outcome is
independent of the remaining candidates, and a first-ranked candidate
without a resolvable external ID makes that query a miss; the multi
search instead walks its candidates in rank order, skipping every
candidate without a truthy external ID, and takes the first one
carrying a truthy external ID, missing only when no candidate carries
one. -/
theorem claim6_amended :
    (∀ (api : TMDBApi) (t : String) (y : Option Nat) (i : Nat)
        (rest : List (Option Nat)) (raw : Option String),
      api.searchMovie t (optNatTruthy y) = Except.ok (some i :: rest) →
      i ≠ 0 →
      api.movieDetails i = Except.ok raw →
      search_movie_with_external_ids api t y = some (ttNormalize raw) ∧
        (truthyStr (ttNormalize raw) = false →
          hitOf (search_movie_with_external_ids api t y) = none)) ∧
    (∀ (api : TMDBApi) (t : String) (y : Option Nat) (i : Nat)
        (rest : List (Option Nat)) (raw : Option String),
      api.searchTV t (optNatTruthy y) = Except.ok (some i :: rest) →
      i ≠ 0 →
      api.tvDetails i = Except.ok raw →
      search_tv_show_with_external_ids api t y = some (ttNormalize raw) ∧
        (truthyStr (ttNormalize raw) = false →
          hitOf (search_tv_show_with_external_ids api t y) = none)) ∧
    (∀ (pre : List (Option String)) (s : String) (rest : List (Option String)),
      (∀ o ∈ pre, truthyStr o = false) → truthyStr (some s) = true →
      firstTruthy (pre ++ some s :: rest) = some s) ∧
    (∀ l : List (Option String), (∀ o ∈ l, truthyStr o = false) →
      firstTruthy l = none) := by
  refine ⟨?_, ?_, ?_, ?_⟩
  · intro api t y i rest raw hs hi hd
    have hiz : (i == 0) = false := by simp [hi]
    have hmain : search_movie_with_external_ids api t y = some (ttNormalize raw) := by
      simp [search_movie_with_external_ids, hs, hiz, hd]
    refine ⟨hmain, fun hf => ?_⟩
    rw [hmain]
    cases hn : ttNormalize raw with
    | none => simp [hitOf]
    | some s =>
      rw [hn] at hf
      have hse : s.data.isEmpty = true := by
        simpa [truthyStr] using hf
      simp [hitOf, hse]
  · intro api t y i rest raw hs hi hd
    have hiz : (i == 0) = false := by simp [hi]
    have hmain : search_tv_show_with_external_ids api t y
        = some (ttNormalize raw) := by
      simp [search_tv_show_with_external_ids, hs, hiz, hd]
    refine ⟨hmain, fun hf => ?_⟩
    rw [hmain]
    cases hn : ttNormalize raw with
    | none => simp [hitOf]
    | some s =>
      rw [hn] at hf
      have hse : s.data.isEmpty = true := by
        simpa [truthyStr] using hf
      simp [hitOf, hse]
  · intro pre s rest hpre hs
    have hse : s.data.isEmpty = false := by
      simpa [truthyStr] using hs
    induction pre with
    | nil => simp [firstTruthy, hse]
    | cons o pre2 ih =>
      have ho := hpre o (List.mem_cons_self _ _)
      have ih2 := ih (fun o2 ho2 => hpre o2 (List.mem_cons_of_mem _ ho2))
      cases o with
      | none => simpa [firstTruthy] using ih2
      | some s0 =>
        have hs0 : s0.data.isEmpty = true := by
          simpa [truthyStr] using ho
        simpa [firstTruthy, hs0] using ih2
  · intro l hl
    induction l with
    | nil => rfl
    | cons o rest ih =>
      have ho := hl o (List.mem_cons_self _ _)
      have ih2 := ih (fun o2 ho2 => hl o2 (List.mem_cons_of_mem _ ho2))
      cases o with
      | none => simpa [firstTruthy] using ih2
      | some s0 =>
        have hs0 : s0.data.isEmpty = true := by
          simpa [truthyStr] using ho
        simpa [firstTruthy, hs0] using ih2

/-- Witness for the C6 amendment: a movie query and a TV query each
with two ranked candidates whose first has an absent cross-reference
(both queries miss), and a multi candidate list whose first truthy
entry sits behind a miss and an empty id. -/
theorem claim6_witness :
    ((missTopApi.searchMovie "t" (optNatTruthy none)
        = Except.ok (some 5 :: [some 9]) ∧
      (5 : Nat) ≠ 0 ∧
      missTopApi.movieDetails 5 = Except.ok none ∧
      truthyStr (ttNormalize none) = false) ∧
     search_movie_with_external_ids missTopApi "t" none = some (ttNormalize none) ∧
     hitOf (search_movie_with_external_ids missTopApi "t" none) = none) ∧
    ((missTopTvApi.searchTV "t" (optNatTruthy none)
        = Except.ok (some 6 :: [some 9]) ∧
      (6 : Nat) ≠ 0 ∧
      missTopTvApi.tvDetails 6 = Except.ok none ∧
      truthyStr (ttNormalize none) = false) ∧
     search_tv_show_with_external_ids missTopTvApi "t" none
        = some (ttNormalize none) ∧
     hitOf (search_tv_show_with_external_ids missTopTvApi "t" none) = none) ∧
    ((∀ o ∈ [none, some ""], truthyStr o = false) ∧
     truthyStr (some "tt9") = true ∧
     firstTruthy ([none, some ""] ++ some "tt9" :: [none]) = some "tt9") ∧
    firstTruthy [none, some ""] = none := by
  refine ⟨⟨⟨rfl, by decide, rfl, by decide⟩, ?_⟩,
    ⟨⟨rfl, by decide, rfl, by decide⟩, ?_⟩, ⟨by decide, by decide, ?_⟩, ?_⟩
  · have h := claim6_amended.1 missTopApi "t" none 5 [some 9] none rfl
      (by decide) rfl
    exact ⟨h.1, h.2 (by decide)⟩
  · have h := claim6_amended.2.1 missTopTvApi "t" none 6 [some 9] none rfl
      (by decide) rfl
    exact ⟨h.1, h.2 (by decide)⟩
  · exact claim6_amended.2.2.1 [none, some ""] "tt9" [none] (by decide) (by decide)
  · exact claim6_amended.2.2.2 [none, some ""] (by decide)

/-! ## Helper lemmas: the cascade under an all-failing catalog -/

theorem attempt_lookup_none (api : TMDBApi)
    (hm : ∀ t y, api.searchMovie t y = Except.error ())
    (ht : ∀ t y, api.searchTV t y = Except.error ())
    (hx : ∀ t, api.searchMulti t = Except.error ()) (t : String)
    (y : Option Nat) : (attempt_lookup api t y).1 = none := by
  simp [attempt_lookup, search_movie_with_external_ids,
    search_tv_show_with_external_ids, search_multi_with_external_ids,
    hm, ht, hx, hitOf, firstTruthy]

theorem regionLoop_fail (api : TMDBApi)
    (hA : ∀ t y, (attempt_lookup api t y).1 = none) (title : String)
    (year : Option Nat) :
    ∀ lst, (regionLoop api title year none lst).1 = none := by
  intro lst
  induction lst with
  | nil => rfl
  | cons sfx rest ih =>
    cases he : pyEndsWith title sfx with
    | true => simp [regionLoop, he, hA, truthyStr, ih]
    | false => simp [regionLoop, he, ih]

theorem wordLoop_fail (api : TMDBApi)
    (hA : ∀ t y, (attempt_lookup api t y).1 = none) (title : String)
    (year : Option Nat) :
    ∀ lst, (wordLoop api title year none lst).1 = none := by
  intro lst
  induction lst with
  | nil => rfl
  | cons wc rest ih =>
    by_cases he : wc ≤ (pySplitStr title).length
    · simp [wordLoop, he, hA, truthyStr, ih]
    · simp [wordLoop, he, ih]

theorem articleLoop_fail (api : TMDBApi)
    (hA : ∀ t y, (attempt_lookup api t y).1 = none) (title : String)
    (year : Option Nat) :
    ∀ lst, (articleLoop api title year none lst).1 = none := by
  intro lst
  induction lst with
  | nil => rfl
  | cons w rest ih =>
    cases he : pyStartsWithStr (pyLowerStr title) (w ++ " ") with
    | true => simp [articleLoop, he, hA, truthyStr, ih]
    | false => simp [articleLoop, he, ih]

theorem cascade_none (api : TMDBApi)
    (hA : ∀ t y, (attempt_lookup api t y).1 = none) (t : String)
    (y : Option Nat) : (cascade api t y).1 = none := by
  have h1 : (strategy1 api t y).1 = none := hA t y
  have h2 : (strategy2 api t y (strategy1 api t y)).1 = none := by
    simp only [strategy2]
    split
    · simp [hA]
    · exact h1
  have h3 : (strategy3 api t y (strategy2 api t y (strategy1 api t y))).1
      = none := by
    simp only [strategy3]
    split
    · simpa [h2] using regionLoop_fail api hA t y regionSuffixes
    · exact h2
  have h4 : (strategy4 api t y (strategy3 api t y
      (strategy2 api t y (strategy1 api t y)))).1 = none := by
    simp only [strategy4]
    split
    · simpa [h3] using wordLoop_fail api hA t y [3, 2]
    · exact h3
  show (strategy5 api t y _).1 = none
  simp only [strategy5]
  split
  · simpa [h4] using articleLoop_fail api hA t y commonWords
  · exact h4

/-- C2: a failing individual catalog call is treated as "no candidate" —
a raising cross-reference call makes the movie search return no result
(so the cascade proceeds) — and under a catalog on which every search
raises, resolution of any uncached title terminates normally with an
absent result that is cached under the title's key. -/
theorem claim2_failure_semantics :
    (∀ (api : TMDBApi) (t : String) (y : Option Nat) (i : Nat)
        (rest : List (Option Nat)),
      api.searchMovie t (optNatTruthy y) = Except.ok (some i :: rest) →
      i ≠ 0 →
      api.movieDetails i = Except.error () →
      search_movie_with_external_ids api t y = none) ∧
    (∀ (api : TMDBApi) (c : Cache) (t : String) (y : Option Nat),
      (∀ t' y', api.searchMovie t' y' = Except.error ()) →
      (∀ t' y', api.searchTV t' y' = Except.error ()) →
      (∀ t', api.searchMulti t' = Except.error ()) →
      c.lookup (cacheKey t y) = none →
      (lookup_title api c t y).1 = none ∧
      (lookup_title api c t y).2.1 = (cacheKey t y, none) :: c) := by
  constructor
  · intro api t y i rest hs hi hd
    have hiz : (i == 0) = false := by simp [hi]
    simp [search_movie_with_external_ids, hs, hiz, hd]
  · intro api c t y hm ht hx hc
    have hA : ∀ t' y', (attempt_lookup api t' y').1 = none :=
      fun t' y' => attempt_lookup_none api hm ht hx t' y'
    have hcas := cascade_none api hA t y
    rw [lookup_title_miss api c t y hc]
    exact ⟨hcas, by rw [hcas]⟩

/-- Witness for C2: the all-raising catalog stub, and the stub whose
cross-reference call raises after a successful search. -/
theorem claim2_witness :
    (detailFailApi.searchMovie "t" (optNatTruthy none)
        = Except.ok (some 5 :: []) ∧ (5 : Nat) ≠ 0 ∧
     detailFailApi.movieDetails 5 = Except.error () ∧
     search_movie_with_external_ids detailFailApi "t" none = none) ∧
    ((lookup_title failApi [] "t" none).1 = none ∧
     (lookup_title failApi [] "t" none).2.1 = (cacheKey "t" none, none) :: []) :=
  ⟨⟨rfl, by decide, rfl,
    claim2_failure_semantics.1 detailFailApi "t" none 5 [] rfl (by decide) rfl⟩,
   claim2_failure_semantics.2 failApi [] "t" none (fun _ _ => rfl)
     (fun _ _ => rfl) (fun _ => rfl) rfl⟩

/-! ## Helper lemmas: shape of external IDs produced by the resolver -/

theorem strData_append (a b : String) : (a ++ b).data = a.data ++ b.data := by
  cases a
  cases b
  rfl

theorem ttStarts_of_isTTid (s : String) (h : isTTid s = true) :
    ttStarts s = true := by
  unfold isTTid at h
  unfold ttStarts
  rcases hd : s.data with _ | ⟨a, _ | ⟨b, rest⟩⟩ <;> rw [hd] at h <;> simp_all

theorem ttNormalize_good (r : Option String) (hg : goodRaw r) :
    ∀ s, ttNormalize r = some s → s.data = [] ∨ isTTid s = true := by
  intro s hs
  cases r with
  | none => simp [ttNormalize] at hs
  | some s0 =>
    by_cases he : s0.data.isEmpty = true
    · left
      have h0 : s0.data = [] := by simpa using he
      simp only [ttNormalize, he, if_true] at hs
      obtain rfl : s0 = s := by injection hs
      exact h0
    · by_cases ht : ttStarts s0 = true
      · right
        simp only [ttNormalize, he, ht, if_true, if_false] at hs
        obtain rfl : s0 = s := by injection hs
        rcases hg s0 rfl with h0 | ⟨hne, hdig⟩ | htt
        · exact absurd h0 (by simpa using he)
        · exfalso
          unfold ttStarts at ht
          rcases hd : s0.data with _ | ⟨a, _ | ⟨b, rest⟩⟩ <;> rw [hd] at ht <;>
            rw [hd] at hdig <;> simp_all
        · exact htt
      · right
        simp only [ttNormalize, he, ht, if_false] at hs
        obtain rfl : "tt" ++ s0 = s := by injection hs
        rcases hg s0 rfl with h0 | ⟨hne, hdig⟩ | htt
        · exact absurd h0 (by simpa using he)
        · have hdata : ("tt" ++ s0).data = 't' :: 't' :: s0.data := by
            rw [strData_append]
            rfl
          unfold isTTid
          rw [hdata]
          simp [hne, hdig]
        · exact absurd (ttStarts_of_isTTid s0 htt) ht

theorem detailsFor_good (api : TMDBApi) (hg : goodDetails api) (k : MediaKind)
    (i : Nat) (raw : Option String) (h : detailsFor api k i = Except.ok raw) :
    goodRaw raw := by
  cases k with
  | movie => exact hg.1 i raw h
  | tv => exact hg.2 i raw h
  | person => simp [detailsFor] at h

theorem search_movie_good (api : TMDBApi) (hg : goodDetails api) (t : String)
    (y : Option Nat) (s : String)
    (h : hitOf (search_movie_with_external_ids api t y) = some s) :
    isTTid s = true := by
  cases hm : api.searchMovie t (optNatTruthy y) with
  | error e =>
    have hv : search_movie_with_external_ids api t y = none := by
      simp [search_movie_with_external_ids, hm]
    rw [hv] at h
    simp [hitOf] at h
  | ok results =>
    cases results with
    | nil =>
      have hv : search_movie_with_external_ids api t y = none := by
        simp [search_movie_with_external_ids, hm]
      rw [hv] at h
      simp [hitOf] at h
    | cons mid rest =>
      cases mid with
      | none =>
        have hv : search_movie_with_external_ids api t y = none := by
          simp [search_movie_with_external_ids, hm]
        rw [hv] at h
        simp [hitOf] at h
      | some i =>
        cases hiz : (i == 0) with
        | true =>
          have hv : search_movie_with_external_ids api t y = none := by
            simp [search_movie_with_external_ids, hm, hiz]
          rw [hv] at h
          simp [hitOf] at h
        | false =>
          cases hd : api.movieDetails i with
          | error e =>
            have hv : search_movie_with_external_ids api t y = none := by
              simp [search_movie_with_external_ids, hm, hiz, hd]
            rw [hv] at h
            simp [hitOf] at h
          | ok raw =>
            have hv : search_movie_with_external_ids api t y
                = some (ttNormalize raw) := by
              simp [search_movie_with_external_ids, hm, hiz, hd]
            rw [hv] at h
            cases hn : ttNormalize raw with
            | none => rw [hn] at h; simp [hitOf] at h
            | some s1 =>
              rw [hn] at h
              by_cases he : s1.data.isEmpty = true
              · simp [hitOf, he] at h
              · simp only [hitOf, he, if_false] at h
                obtain rfl : s1 = s := by injection h
                rcases ttNormalize_good raw (hg.1 i raw hd) s1 hn with h0 | htt
                · exact absurd h0 (by simpa using he)
                · exact htt

theorem search_tv_good (api : TMDBApi) (hg : goodDetails api) (t : String)
    (y : Option Nat) (s : String)
    (h : hitOf (search_tv_show_with_external_ids api t y) = some s) :
    isTTid s = true := by
  cases hm : api.searchTV t (optNatTruthy y) with
  | error e =>
    have hv : search_tv_show_with_external_ids api t y = none := by
      simp [search_tv_show_with_external_ids, hm]
    rw [hv] at h
    simp [hitOf] at h
  | ok results =>
    cases results with
    | nil =>
      have hv : search_tv_show_with_external_ids api t y = none := by
        simp [search_tv_show_with_external_ids, hm]
      rw [hv] at h
      simp [hitOf] at h
    | cons mid rest =>
      cases mid with
      | none =>
        have hv : search_tv_show_with_external_ids api t y = none := by
          simp [search_tv_show_with_external_ids, hm]
        rw [hv] at h
        simp [hitOf] at h
      | some i =>
        cases hiz : (i == 0) with
        | true =>
          have hv : search_tv_show_with_external_ids api t y = none := by
            simp [search_tv_show_with_external_ids, hm, hiz]
          rw [hv] at h
          simp [hitOf] at h
        | false =>
          cases hd : api.tvDetails i with
          | error e =>
            have hv : search_tv_show_with_external_ids api t y = none := by
              simp [search_tv_show_with_external_ids, hm, hiz, hd]
            rw [hv] at h
            simp [hitOf] at h
          | ok raw =>
            have hv : search_tv_show_with_external_ids api t y
                = some (ttNormalize raw) := by
              simp [search_tv_show_with_external_ids, hm, hiz, hd]
            rw [hv] at h
            cases hn : ttNormalize raw with
            | none => rw [hn] at h; simp [hitOf] at h
            | some s1 =>
              rw [hn] at h
              by_cases he : s1.data.isEmpty = true
              · simp [hitOf, he] at h
              · simp only [hitOf, he, if_false] at h
                obtain rfl : s1 = s := by injection h
                rcases ttNormalize_good raw (hg.2 i raw hd) s1 hn with h0 | htt
                · exact absurd h0 (by simpa using he)
                · exact htt

theorem processMulti_good (api : TMDBApi) (hg : goodDetails api) :
    ∀ (items : List RawItem) (l : List (Option String)),
      processMulti api items = Except.ok l →
      ∀ o ∈ l, ∀ s, o = some s → s.data = [] ∨ isTTid s = true := by
  intro items
  induction items with
  | nil =>
    intro l h o ho s hs
    simp only [processMulti, Except.ok.injEq] at h
    subst h
    simp at ho
  | cons item rest ih =>
    intro l h o ho s hs
    by_cases hmt : item.media_type = MediaKind.movie ∨ item.media_type = MediaKind.tv
    · rw [processMulti, if_pos hmt] at h
      cases hid : item.id with
      | none => rw [hid] at h; exact ih l h o ho s hs
      | some i =>
        rw [hid] at h
        simp only [] at h
        cases hiz : (i == 0) with
        | true => rw [hiz] at h; simp only [if_true] at h; exact ih l h o ho s hs
        | false =>
          rw [hiz] at h
          simp only [Bool.false_eq_true, if_false] at h
          cases hdt : detailsFor api item.media_type i with
          | error e => rw [hdt] at h; simp at h
          | ok raw =>
            rw [hdt] at h
            cases hrec : processMulti api rest with
            | error e => rw [hrec] at h; simp at h
            | ok l2 =>
              rw [hrec] at h
              simp only [Except.ok.injEq] at h
              subst h
              rcases List.mem_cons.mp ho with ho1 | ho2
              · subst ho1
                rcases ttNormalize_good raw
                    (detailsFor_good api hg item.media_type i raw hdt) s hs with
                  h0 | htt
                · exact Or.inl h0
                · exact Or.inr htt
              · exact ih l2 hrec o ho2 s hs
    · rw [processMulti, if_neg hmt] at h
      exact ih l h o ho s hs

theorem search_multi_good (api : TMDBApi) (hg : goodDetails api) (t : String) :
    ∀ o ∈ search_multi_with_external_ids api t,
      ∀ s, o = some s → s.data = [] ∨ isTTid s = true := by
  intro o ho s hs
  unfold search_multi_with_external_ids at ho
  cases hx : api.searchMulti t with
  | error e => rw [hx] at ho; simp at ho
  | ok results =>
    rw [hx] at ho
    simp only [] at ho
    cases hp : processMulti api results with
    | error e => rw [hp] at ho; simp at ho
    | ok l => rw [hp] at ho; exact processMulti_good api hg results l hp o ho s hs

theorem firstTruthy_good :
    ∀ l : List (Option String),
      (∀ o ∈ l, ∀ s, o = some s → s.data = [] ∨ isTTid s = true) →
      ∀ s, firstTruthy l = some s → isTTid s = true := by
  intro l
  induction l with
  | nil => intro _ s h; simp [firstTruthy] at h
  | cons o rest ih =>
    intro hl s h
    cases o with
    | none =>
      simp only [firstTruthy] at h
      exact ih (fun o' ho' => hl o' (List.mem_cons_of_mem _ ho')) s h
    | some s0 =>
      simp only [firstTruthy] at h
      by_cases he : s0.data.isEmpty = true
      · rw [if_pos he] at h
        exact ih (fun o' ho' => hl o' (List.mem_cons_of_mem _ ho')) s h
      · rw [if_neg he] at h
        obtain rfl : s0 = s := by injection h
        rcases hl (some s0) (List.mem_cons_self _ _) s0 rfl with h0 | htt
        · exact absurd h0 (by simpa using he)
        · exact htt

theorem attempt_good (api : TMDBApi) (hg : goodDetails api) (t : String)
    (y : Option Nat) (s : String) (h : (attempt_lookup api t y).1 = some s) :
    isTTid s = true := by
  unfold attempt_lookup at h
  cases h1 : hitOf (search_movie_with_external_ids api t y) with
  | some s1 =>
    rw [h1] at h
    obtain rfl : s1 = s := by injection h
    exact search_movie_good api hg t y s1 h1
  | none =>
    rw [h1] at h
    cases h2 : hitOf (search_tv_show_with_external_ids api t y) with
    | some s2 =>
      rw [h2] at h
      obtain rfl : s2 = s := by injection h
      exact search_tv_good api hg t y s2 h2
    | none =>
      rw [h2] at h
      exact firstTruthy_good _ (search_multi_good api hg t) s h

theorem regionLoop_good (api : TMDBApi)
    (hA : ∀ t y s, (attempt_lookup api t y).1 = some s → isTTid s = true)
    (title : String) (year : Option Nat) :
    ∀ (lst : List String) (imdb0 : Option String),
      (∀ s, imdb0 = some s → isTTid s = true) →
      ∀ s, (regionLoop api title year imdb0 lst).1 = some s → isTTid s = true := by
  intro lst
  induction lst with
  | nil => intro imdb0 h0 s hs; exact h0 s hs
  | cons sfx rest ih =>
    intro imdb0 h0 s hs
    cases he : pyEndsWith title sfx with
    | false =>
      simp only [regionLoop, he, Bool.false_eq_true, if_false] at hs
      exact ih imdb0 h0 s hs
    | true =>
      simp only [regionLoop, he, if_true] at hs
      split at hs
      · exact hA _ _ s hs
      · split at hs
        · exact hA _ _ s hs
        · exact ih _ (fun s' hs' => hA _ _ s' hs') s hs

theorem wordLoop_good (api : TMDBApi)
    (hA : ∀ t y s, (attempt_lookup api t y).1 = some s → isTTid s = true)
    (title : String) (year : Option Nat) :
    ∀ (lst : List Nat) (imdb0 : Option String),
      (∀ s, imdb0 = some s → isTTid s = true) →
      ∀ s, (wordLoop api title year imdb0 lst).1 = some s → isTTid s = true := by
  intro lst
  induction lst with
  | nil => intro imdb0 h0 s hs; exact h0 s hs
  | cons wc rest ih =>
    intro imdb0 h0 s hs
    by_cases he : wc ≤ (pySplitStr title).length
    · simp only [wordLoop, he, if_true] at hs
      split at hs
      · exact hA _ _ s hs
      · split at hs
        · exact hA _ _ s hs
        · exact ih _ (fun s' hs' => hA _ _ s' hs') s hs
    · simp only [wordLoop, he, if_false] at hs
      exact ih imdb0 h0 s hs

theorem articleLoop_good (api : TMDBApi)
    (hA : ∀ t y s, (attempt_lookup api t y).1 = some s → isTTid s = true)
    (title : String) (year : Option Nat) :
    ∀ (lst : List String) (imdb0 : Option String),
      (∀ s, imdb0 = some s → isTTid s = true) →
      ∀ s, (articleLoop api title year imdb0 lst).1 = some s → isTTid s = true := by
  intro lst
  induction lst with
  | nil => intro imdb0 h0 s hs; exact h0 s hs
  | cons w rest ih =>
    intro imdb0 h0 s hs
    cases he : pyStartsWithStr (pyLowerStr title) (w ++ " ") with
    | false =>
      simp only [articleLoop, he, Bool.false_eq_true, if_false] at hs
      exact ih imdb0 h0 s hs
    | true =>
      simp only [articleLoop, he, if_true] at hs
      split at hs
      · exact hA _ _ s hs
      · split at hs
        · exact hA _ _ s hs
        · exact ih _ (fun s' hs' => hA _ _ s' hs') s hs

theorem cascade_good (api : TMDBApi)
    (hA : ∀ t y s, (attempt_lookup api t y).1 = some s → isTTid s = true)
    (t : String) (y : Option Nat) :
    ∀ s, (cascade api t y).1 = some s → isTTid s = true := by
  have h1 : ∀ s, (strategy1 api t y).1 = some s → isTTid s = true := hA t y
  have h2 : ∀ s, (strategy2 api t y (strategy1 api t y)).1 = some s →
      isTTid s = true := by
    intro s hs
    simp only [strategy2] at hs
    split at hs
    · exact hA _ _ s hs
    · exact h1 s hs
  have h3 : ∀ s,
      (strategy3 api t y (strategy2 api t y (strategy1 api t y))).1 = some s →
      isTTid s = true := by
    intro s hs
    simp only [strategy3] at hs
    split at hs
    · exact regionLoop_good api hA t y regionSuffixes _ h2 s hs
    · exact h2 s hs
  have h4 : ∀ s, (strategy4 api t y (strategy3 api t y
      (strategy2 api t y (strategy1 api t y)))).1 = some s →
      isTTid s = true := by
    intro s hs
    simp only [strategy4] at hs
    split at hs
    · exact wordLoop_good api hA t y [3, 2] _ h3 s hs
    · exact h3 s hs
  intro s hs
  simp only [cascade, strategy5] at hs
  split at hs
  · exact articleLoop_good api hA t y commonWords _ h4 s hs
  · exact h4 s hs

theorem lookup_title_good (api : TMDBApi)
    (hA : ∀ t y s, (attempt_lookup api t y).1 = some s → isTTid s = true)
    (c : Cache) (hc : goodCache c) (t : String) (y : Option Nat) :
    (∀ s, (lookup_title api c t y).1 = some s → isTTid s = true) ∧
    goodCache (lookup_title api c t y).2.1 := by
  cases hl : List.lookup (cacheKey t y) c with
  | some v =>
    rw [lookup_title_hit api c t y v hl]
    exact ⟨fun s hs => hc _ v (mem_of_lookup_eq_some c hl) s hs, hc⟩
  | none =>
    rw [lookup_title_miss api c t y hl]
    refine ⟨fun s hs => cascade_good api hA t y s hs, ?_⟩
    intro k v hkv s hv
    rcases List.mem_cons.mp hkv with h | h
    · obtain ⟨rfl, rfl⟩ := Prod.mk.injEq .. |>.mp h
      exact cascade_good api hA t y s hv
    · exact hc k v h s hv

theorem processStep_good (api : TMDBApi)
    (hA : ∀ t y s, (attempt_lookup api t y).1 = some s → isTTid s = true)
    (isoOf : Int → Option String) (c : Cache) (hc : goodCache c)
    (d : Download) :
    (∀ e, (processStep api isoOf c d).1 = some e → isTTid e.imdb_id = true) ∧
    goodCache (processStep api isoOf c d).2 := by
  by_cases h1 : d.filename = ""
  · rw [processStep, if_pos h1]
    exact ⟨fun e he => absurd he (by simp), hc⟩
  · rw [processStep, if_neg h1]
    simp only []
    by_cases h2 : (extract_title_and_year d.filename).1 = ""
        ∨ (extract_title_and_year d.filename).1.length < 3
    · rw [if_pos h2]
      exact ⟨fun e he => absurd he (by simp), hc⟩
    · rw [if_neg h2]
      have hg := lookup_title_good api hA c hc
        (extract_title_and_year d.filename).1 (extract_title_and_year d.filename).2
      constructor
      · intro e hee
        split at hee
        · rename_i s heq
          split at hee
          · exact absurd hee (by simp)
          · obtain rfl : (⟨s, watchedAtOf isoOf d.generated⟩ : TraktEntry) = e := by
              injection hee
            exact hg.1 s heq
        · exact absurd hee (by simp)
      · split
        · split
          · exact hg.2
          · exact hg.2
        · exact hg.2

theorem process_go_good (api : TMDBApi)
    (hA : ∀ t y s, (attempt_lookup api t y).1 = some s → isTTid s = true)
    (isoOf : Int → Option String) :
    ∀ (ds : List Download) (c : Cache), goodCache c →
      (∀ e ∈ (process_downloads_go api isoOf c ds).1, isTTid e.imdb_id = true) ∧
      goodCache (process_downloads_go api isoOf c ds).2 := by
  intro ds
  induction ds with
  | nil =>
    intro c hc
    exact ⟨by intro e he; simp [process_downloads_go] at he, hc⟩
  | cons d rest ih =>
    intro c hc
    have hp := processStep_good api hA isoOf c hc d
    have hr := ih (processStep api isoOf c d).2 hp.2
    constructor
    · intro e he
      simp only [process_downloads_go] at he
      rw [List.mem_append] at he
      rcases he with he | he
      · cases hs : (processStep api isoOf c d).1 with
        | none => rw [hs] at he; simp at he
        | some e0 =>
          rw [hs] at he
          simp only [List.mem_singleton] at he
          subst he
          exact hp.1 _ hs
      · exact hr.1 e he
    · simp only [process_downloads_go]
      exact hr.2

/-- C9 fails on the code: the fixup blindly prefixes `tt` to whatever
string the cross-reference lookup returns, so a catalog answer of
`"abc"` produces the cached and returned external ID `"ttabc"`, which
does not match `tt[0-9]+`. -/
theorem claim9_counterexample :
    (lookup_title oddIdApi [] "t" none).1 = some "ttabc" ∧
    isTTid "ttabc" = false := by
  constructor
  · decide
  · decide

/-- C9 amended: provided every string the catalog's cross-reference
lookup returns is empty, all digits, or already of the form
`tt[0-9]+`, every external ID present in an emitted output record or in
a cache entry of the run matches `tt[0-9]+`. -/
theorem claim9_amended (api : TMDBApi) (isoOf : Int → Option String)
    (ds : List Download) (hg : goodDetails api) :
    (∀ e ∈ (process_downloads api isoOf ds).1, isTTid e.imdb_id = true) ∧
    (∀ k v, (k, v) ∈ (process_downloads api isoOf ds).2 →
      ∀ s, v = some s → isTTid s = true) := by
  have hA : ∀ t y s, (attempt_lookup api t y).1 = some s → isTTid s = true :=
    fun t y s h => attempt_good api hg t y s h
  have h := process_go_good api hA isoOf ds []
    (by intro k v hkv; simp at hkv)
  exact ⟨h.1, h.2⟩

/-- Witness for the C9 amendment: a well-behaved catalog (digit-only
movie cross-references, `tt`-prefixed tv cross-references) on a
one-record batch. -/
theorem claim9_witness :
    goodDetails digitsApi ∧
    ((∀ e ∈ (process_downloads digitsApi (fun _ => none)
        [⟨"Foo Bar", none⟩]).1, isTTid e.imdb_id = true) ∧
     (∀ k v, (k, v) ∈ (process_downloads digitsApi (fun _ => none)
        [⟨"Foo Bar", none⟩]).2 → ∀ s, v = some s → isTTid s = true)) := by
  have hg : goodDetails digitsApi := by
    constructor
    · intro i r h
      obtain rfl : some "0133093" = r := by injection h
      intro s hs
      obtain rfl : "0133093" = s := by injection hs
      exact Or.inr (Or.inl (by constructor <;> decide))
    · intro i r h
      obtain rfl : some "tt123" = r := by injection h
      intro s hs
      obtain rfl : "tt123" = s := by injection hs
      exact Or.inr (Or.inr (by decide))
  exact ⟨hg, claim9_amended digitsApi (fun _ => none) [⟨"Foo Bar", none⟩] hg⟩

/-! ## Helper lemmas: leftmost year match and first-occurrence removal -/

theorem yearShape_four (ds : List Char) (h : yearShape ds = true) :
    ∃ a b c d, ds = [a, b, c, d] := by
  rcases ds with _ | ⟨a, _ | ⟨b, _ | ⟨c, _ | ⟨d, _ | ⟨e, rest⟩⟩⟩⟩⟩
  · simp [yearShape] at h
  · simp [yearShape] at h
  · simp [yearShape] at h
  · simp [yearShape] at h
  · exact ⟨a, b, c, d, rfl⟩
  · simp [yearShape] at h

theorem yearAt_iff (l ds : List Char) :
    yearAt l = some ds ↔
      ∃ post, l = ds ++ post ∧ yearShape ds = true ∧ headNonWord post = true := by
  constructor
  · intro h
    rcases l with _ | ⟨a, _ | ⟨b, _ | ⟨c2, _ | ⟨d, rest⟩⟩⟩⟩
    · simp [yearAt] at h
    · simp [yearAt] at h
    · simp [yearAt] at h
    · simp [yearAt] at h
    · by_cases hc : (yearShape [a, b, c2, d] && headNonWord rest) = true
      · simp only [yearAt] at h
        rw [if_pos hc] at h
        obtain rfl : [a, b, c2, d] = ds := by injection h
        obtain ⟨hs, hh⟩ := Bool.and_eq_true _ _ |>.mp hc
        exact ⟨rest, rfl, hs, hh⟩
      · simp only [yearAt] at h
        rw [if_neg hc] at h
        simp at h
  · rintro ⟨post, rfl, hs, hh⟩
    obtain ⟨a, b, c2, d, rfl⟩ := yearShape_four ds hs
    show yearAt (a :: b :: c2 :: d :: post) = some [a, b, c2, d]
    simp [yearAt, hs, hh]

theorem lastNonWord_cons (b : Bool) (c : Char) (pre : List Char) :
    lastNonWord b (c :: pre) = lastNonWord (wordChar c) pre := by
  cases pre with
  | nil => simp [lastNonWord]
  | cons d l =>
    simp only [lastNonWord, List.getLast?_cons_cons]
    cases hgl : (d :: l).getLast? with
    | none => simp at hgl
    | some x => rfl

theorem yearSplit_cons_iff (prevW : Bool) (c : Char) (rest pre ds post : List Char) :
    yearSplit prevW (c :: rest) (c :: pre) ds post ↔
      yearSplit (wordChar c) rest pre ds post := by
  unfold yearSplit
  rw [lastNonWord_cons]
  simp [List.cons_append]

theorem yearSplit_nil_elim (prevW : Bool) (l ds post : List Char)
    (h : yearSplit prevW l [] ds post) : prevW = false ∧ yearAt l = some ds := by
  obtain ⟨hl, hs, hb, hh⟩ := h
  rw [List.nil_append] at hl
  subst hl
  constructor
  · simpa [lastNonWord] using hb
  · exact (yearAt_iff _ _).2 ⟨post, rfl, hs, hh⟩

theorem searchYear_some :
    ∀ (l : List Char) (prevW : Bool) (ds : List Char),
      searchYear prevW l = some ds →
      ∃ pre post, yearSplit prevW l pre ds post ∧
        ∀ pre' ds' post', yearSplit prevW l pre' ds' post' →
          pre.length ≤ pre'.length := by
  intro l
  induction l with
  | nil => intro prevW ds h; simp [searchYear] at h
  | cons c rest ih =>
    intro prevW ds h
    simp only [searchYear] at h
    cases hy : (if prevW = true then none else yearAt (c :: rest)) with
    | some y =>
      rw [hy] at h
      simp only [] at h
      obtain rfl : y = ds := by injection h
      cases hpw : prevW with
      | true => rw [hpw] at hy; simp at hy
      | false =>
        rw [hpw] at hy
        simp at hy
        obtain ⟨post, heq, hs, hh⟩ := (yearAt_iff _ _).1 hy
        exact ⟨[], post, ⟨by simpa using heq, hs, by simp [lastNonWord], hh⟩,
          fun pre' ds' post' _ => Nat.zero_le _⟩
    | none =>
      rw [hy] at h
      simp only [] at h
      obtain ⟨pre, post, hsp, hmin⟩ := ih (wordChar c) ds h
      refine ⟨c :: pre, post, (yearSplit_cons_iff _ _ _ _ _ _).2 hsp, ?_⟩
      intro pre' ds' post' hsp'
      cases pre' with
      | nil =>
        exfalso
        obtain ⟨hpw, hya⟩ := yearSplit_nil_elim prevW _ ds' post' hsp'
        rw [hpw] at hy
        simp at hy
        rw [hya] at hy
        simp at hy
      | cons c' pre'' =>
        have hl := hsp'.1
        rw [List.cons_append] at hl
        injection hl with h1 h2
        subst h1
        have hsub := (yearSplit_cons_iff prevW c rest pre'' ds' post').1 hsp'
        have := hmin pre'' ds' post' hsub
        simpa using Nat.succ_le_succ this

theorem searchYear_none :
    ∀ (l : List Char) (prevW : Bool),
      searchYear prevW l = none →
      ∀ pre ds post, ¬ yearSplit prevW l pre ds post := by
  intro l
  induction l with
  | nil =>
    intro prevW _ pre ds post hsp
    obtain ⟨hl, hs, _, _⟩ := hsp
    obtain ⟨a, b, c2, d, rfl⟩ := yearShape_four ds hs
    simp at hl
  | cons c rest ih =>
    intro prevW h pre ds post hsp
    simp only [searchYear] at h
    cases hy : (if prevW = true then none else yearAt (c :: rest)) with
    | some y => rw [hy] at h; simp at h
    | none =>
      rw [hy] at h
      simp only [] at h
      cases pre with
      | nil =>
        obtain ⟨hpw, hya⟩ := yearSplit_nil_elim prevW _ ds post hsp
        rw [hpw] at hy
        simp at hy
        rw [hya] at hy
        simp at hy
      | cons c' pre'' =>
        have hl := hsp.1
        rw [List.cons_append] at hl
        injection hl with h1 h2
        subst h1
        exact ih (wordChar c) h pre'' ds post
          ((yearSplit_cons_iff prevW c rest pre'' ds post).1 hsp)

theorem isPrefixOf_drop :
    ∀ (p l : List Char), p.isPrefixOf l = true → l = p ++ l.drop p.length := by
  intro p
  induction p with
  | nil => intro l _; simp
  | cons a ps ih =>
    intro l h
    cases l with
    | nil => simp [List.isPrefixOf] at h
    | cons b bs =>
      simp only [List.isPrefixOf, Bool.and_eq_true] at h
      obtain ⟨hab, hps⟩ := h
      obtain rfl : a = b := eq_of_beq hab
      have := ih bs hps
      simp only [List.length_cons, List.drop_succ_cons, List.cons_append]
      exact congrArg (a :: ·) this

theorem isPrefixOf_of_append :
    ∀ (p t : List Char), p.isPrefixOf (p ++ t) = true := by
  intro p t
  induction p with
  | nil => simp [List.isPrefixOf]
  | cons a ps ih => simp [List.isPrefixOf, ih]

theorem replaceFirstOcc_spec :
    ∀ (l pat : List Char) (r : Char) (pre0 post0 : List Char),
      pat ≠ [] → l = pre0 ++ pat ++ post0 →
      ∃ pre post, l = pre ++ pat ++ post ∧
        (∀ pre' post', l = pre' ++ pat ++ post' → pre.length ≤ pre'.length) ∧
        replaceFirstOcc pat r l = pre ++ r :: post := by
  intro l
  induction l with
  | nil =>
    intro pat r pre0 post0 hne h
    exfalso
    rcases pat with _ | ⟨a, ps⟩
    · exact hne rfl
    · simp at h
  | cons c rest ih =>
    intro pat r pre0 post0 hne h
    by_cases hpre : pat.isPrefixOf (c :: rest) = true
    · refine ⟨[], (c :: rest).drop pat.length, ?_, fun _ _ _ => Nat.zero_le _, ?_⟩
      · simpa using isPrefixOf_drop pat (c :: rest) hpre
      · simp only [replaceFirstOcc]
        rw [if_pos hpre]
        simp
    · cases pre0 with
      | nil =>
        exfalso
        apply hpre
        have h' : c :: rest = pat ++ post0 := by simpa using h
        rw [h']
        exact isPrefixOf_of_append pat post0
      | cons c0 pre0' =>
        have h' : c :: rest = c0 :: (pre0' ++ pat ++ post0) := by
          simpa [List.cons_append] using h
        injection h' with hc hrest
        subst hc
        obtain ⟨pre, post, he, hmin, hrep⟩ := ih pat r pre0' post0 hne hrest
        refine ⟨c :: pre, post, ?_, ?_, ?_⟩
        · simp [List.cons_append, he]
        · intro pre' post' h2
          cases pre' with
          | nil =>
            exfalso
            apply hpre
            have h2' : c :: rest = pat ++ post' := by simpa using h2
            rw [h2']
            exact isPrefixOf_of_append pat post'
          | cons a pre'' =>
            have h2' : c :: rest = a :: (pre'' ++ pat ++ post') := by
              simpa [List.cons_append] using h2
            injection h2' with ha hr2
            have := hmin pre'' post' hr2
            simpa using Nat.succ_le_succ this
        · simp only [replaceFirstOcc]
          rw [if_neg hpre, hrep]
          simp

/-- C4 fails on the code: on `"21990 1990"` the recorded year is 1990
(the boundary-delimited occurrence at position 6), but the removal
deletes the first plain substring occurrence of `1990` — the one inside
the digit run `21990` — leaving the matched occurrence in place and
mutilating another digit run, unlike the spec-style removal of the first
boundary-delimited occurrence. -/
theorem claim4_counterexample :
    searchYear false "21990 1990".data = some ['1', '9', '9', '0'] ∧
    replaceFirstOcc ['1', '9', '9', '0'] ' ' "21990 1990".data = "2  1990".data ∧
    specYearRemoval false "21990 1990".data = "21990  ".data ∧
    replaceFirstOcc ['1', '9', '9', '0'] ' ' "21990 1990".data
      ≠ specYearRemoval false "21990 1990".data ∧
    (extract_title_and_year "21990 1990").2 = some 1990 := by
  refine ⟨by decide, by decide, by decide, by decide, by decide⟩

/-- C4 amended: the recorded year digits are the leftmost
word-boundary-delimited `19xx`/`20xx` run of the filename, and the
working string is obtained by replacing the first *plain substring*
occurrence of those digits (which may lie inside another digit run) by a
space — rather than the boundary-delimited occurrence itself. -/
theorem claim4_amended (s : String) (ds : List Char)
    (h : searchYear false s.data = some ds) :
    (∃ pre post, yearSplit false s.data pre ds post ∧
      ∀ pre' ds' post', yearSplit false s.data pre' ds' post' →
        pre.length ≤ pre'.length) ∧
    (∃ pre post, s.data = pre ++ ds ++ post ∧
      (∀ pre' post', s.data = pre' ++ ds ++ post' → pre.length ≤ pre'.length) ∧
      replaceFirstOcc ds ' ' s.data = pre ++ ' ' :: post) ∧
    extract_title_and_year s
      = (String.mk (clean_filename_list (replaceFirstOcc ds ' ' s.data)),
         some (digitsVal ds)) := by
  obtain ⟨pre, post, hsp, hmin⟩ := searchYear_some s.data false ds h
  have hne : ds ≠ [] := by
    obtain ⟨a, b, c2, d, rfl⟩ := yearShape_four ds hsp.2.1
    simp
  refine ⟨⟨pre, post, hsp, hmin⟩,
    replaceFirstOcc_spec s.data ds ' ' pre post hne hsp.1, ?_⟩
  simp [extract_title_and_year, h]

/-- Witness for the C4 amendment at the input `"21990 1990"`. -/
theorem claim4_witness :
    searchYear false "21990 1990".data = some ['1', '9', '9', '0'] ∧
    ((∃ pre post, yearSplit false "21990 1990".data pre ['1', '9', '9', '0'] post ∧
       ∀ pre' ds' post', yearSplit false "21990 1990".data pre' ds' post' →
         pre.length ≤ pre'.length) ∧
     (∃ pre post, "21990 1990".data = pre ++ ['1', '9', '9', '0'] ++ post ∧
       (∀ pre' post', "21990 1990".data = pre' ++ ['1', '9', '9', '0'] ++ post' →
         pre.length ≤ pre'.length) ∧
       replaceFirstOcc ['1', '9', '9', '0'] ' ' "21990 1990".data
         = pre ++ ' ' :: post) ∧
     extract_title_and_year "21990 1990"
       = (String.mk (clean_filename_list
            (replaceFirstOcc ['1', '9', '9', '0'] ' ' "21990 1990".data)),
          some (digitsVal ['1', '9', '9', '0']))) :=
  ⟨by decide, claim4_amended "21990 1990" ['1', '9', '9', '0'] (by decide)⟩
